import Mathlib

/-!
Verification of the Progression & Reward Reconciliation Engine of the
clicker-game repository.  Each definition is a shallow embedding of a source
function: the milestone evaluator (`checkClickAchievements` in
`src/app/actions/achievement-actions.ts`), the click aggregator
(`processClickQueue` and `calculateFibonacciBackoff` in the clicker-game hook),
the power lifecycle SQL functions (`upgrade_user_power`,
`confirm_power_upgrade`), the power-view equality check (`arePowersEqual` in
the achievements hook), the click-multiplier derivation (`getClickMultiplier`),
and the active-power fetch with its repair side effect (`getActiveUserPowers`).
-/

/-! ## Milestone evaluator (achievement-actions.ts, checkClickAchievements) -/

/-- The `type` column of the `achievements` table. -/
inductive AchievementType where
  | clicks
  | rank
  | click_speed
deriving DecidableEq, Repr

/-- A row of the `achievements` catalog, restricted to the columns
`checkClickAchievements` reads (`id`, `type`, `threshold`). -/
structure Achievement where
  id : Nat
  type : AchievementType
  threshold : Nat
deriving DecidableEq, Repr

/-- Insertion step for ordering a catalog query result by ascending threshold
(the `ORDER BY threshold ASC` of the source query). -/
def insertByThreshold (a : Achievement) : List Achievement → List Achievement
  | [] => [a]
  | b :: bs =>
    if a.threshold ≤ b.threshold then a :: b :: bs else b :: insertByThreshold a bs

/-- Sort a list of achievements by ascending threshold. -/
def sortByThreshold : List Achievement → List Achievement
  | [] => []
  | a :: as => insertByThreshold a (sortByThreshold as)

/-- Embedding of `checkClickAchievements(userId, clickCount)` from
`src/app/actions/achievement-actions.ts`.  The database state is passed
explicitly: `catalog` is the `achievements` table and `existingIds` the
`achievement_id`s the user already holds in `user_achievements`.  The first
query selects the rows with `type = clicks` and `threshold <= clickCount`
ordered by threshold; the function then filters out already-granted ids and
inserts (returns) the remainder.  The early returns on empty lists of the
source are functionally the identity here. -/
def checkClickAchievements (catalog : List Achievement) (existingIds : List Nat)
    (clickCount : Nat) : List Achievement :=
  let achievements :=
    sortByThreshold (catalog.filter (fun a =>
      a.type = AchievementType.clicks ∧ a.threshold ≤ clickCount))
  let achievementsToUnlock :=
    achievements.filter (fun a => a.id ∉ existingIds)
  achievementsToUnlock

/-- Modelled from the spec: the Milestone Evaluator contract
`evaluate(previousTotal, newTotal, catalog, alreadyGranted)` of §4.2, where a
clicks-triggered definition is newly crossed iff
`previousTotal < threshold ≤ newTotal` and its id is not already granted.
Written to formalise the claim's wording and be compared with the source
function `checkClickAchievements`, which takes no `previousTotal`. -/
def specEvaluateClicks (previousTotal newTotal : Nat) (catalog : List Achievement)
    (alreadyGranted : List Nat) : List Achievement :=
  catalog.filter (fun a =>
    a.type = AchievementType.clicks ∧ previousTotal < a.threshold ∧
      a.threshold ≤ newTotal ∧ a.id ∉ alreadyGranted)

theorem mem_insertByThreshold {a b : Achievement} {l : List Achievement} :
    a ∈ insertByThreshold b l ↔ a = b ∨ a ∈ l := by
  induction l with
  | nil => simp [insertByThreshold]
  | cons c cs ih =>
      by_cases h : b.threshold ≤ c.threshold
      · simp [insertByThreshold, h]
      · simp [insertByThreshold, h, ih]
        tauto

theorem mem_sortByThreshold {a : Achievement} {l : List Achievement} :
    a ∈ sortByThreshold l ↔ a ∈ l := by
  induction l with
  | nil => simp [sortByThreshold]
  | cons b bs ih => simp [sortByThreshold, mem_insertByThreshold, ih]

theorem mem_checkClickAchievements {a : Achievement} {catalog : List Achievement}
    {existingIds : List Nat} {clickCount : Nat} :
    a ∈ checkClickAchievements catalog existingIds clickCount ↔
      a ∈ catalog ∧ a.type = AchievementType.clicks ∧ a.threshold ≤ clickCount ∧
        a.id ∉ existingIds := by
  simp only [checkClickAchievements, List.mem_filter, mem_sortByThreshold]
  constructor
  · rintro ⟨⟨ha, hcond⟩, hid⟩
    simp only [decide_eq_true_eq] at hcond hid
    exact ⟨ha, hcond.1, hcond.2, hid⟩
  · rintro ⟨ha, ht, hc, hid⟩
    refine ⟨⟨ha, ?_⟩, ?_⟩ <;> simp [ht, hc, hid]

/-- Claim C1 (counterexample): the evaluation is NOT parameterised by
`previousTotal`.  With a catalog holding one clicks achievement at threshold
50, `previousTotal = newTotal = 100` and nothing granted yet, the claimed
contract (`previousTotal < threshold ≤ newTotal`) grants nothing, but the code
grants the threshold-50 achievement, because it only checks
`threshold ≤ clickCount` against the already-granted set. -/
theorem C1_counterexample :
    checkClickAchievements [⟨1, AchievementType.clicks, 50⟩] [] 100 ≠
      specEvaluateClicks 100 100 [⟨1, AchievementType.clicks, 50⟩] [] := by
  decide

/-- Claim C1 (amended): one click-milestone evaluation grants exactly the
clicks-triggered definitions with `threshold ≤ newTotal` whose id is not
already granted — `previousTotal` is not consulted.  Re-evaluating after the
granted ids are recorded grants nothing, and a single evaluation at total 600
over thresholds {100, 250, 500} with nothing granted yet grants all three at
once and none of them again on re-evaluation. -/
theorem C1_click_milestone_grants :
    (∀ (catalog : List Achievement) (granted : List Nat) (newTotal : Nat)
        (a : Achievement),
      a ∈ checkClickAchievements catalog granted newTotal ↔
        a ∈ catalog ∧ a.type = AchievementType.clicks ∧
          a.threshold ≤ newTotal ∧ a.id ∉ granted) ∧
    (∀ (catalog : List Achievement) (granted : List Nat) (newTotal : Nat),
      checkClickAchievements catalog
        (granted ++ (checkClickAchievements catalog granted newTotal).map
          Achievement.id) newTotal = []) ∧
    ((checkClickAchievements
        [⟨1, AchievementType.clicks, 100⟩, ⟨2, AchievementType.clicks, 250⟩,
          ⟨3, AchievementType.clicks, 500⟩] [] 600).map Achievement.id =
        [1, 2, 3] ∧
      checkClickAchievements
        [⟨1, AchievementType.clicks, 100⟩, ⟨2, AchievementType.clicks, 250⟩,
          ⟨3, AchievementType.clicks, 500⟩] [1, 2, 3] 600 = []) := by
  refine ⟨fun catalog granted newTotal a => mem_checkClickAchievements,
    fun catalog granted newTotal => ?_, by decide⟩
  simp only [checkClickAchievements]
  rw [List.filter_eq_nil_iff]
  intro a ha
  rw [mem_sortByThreshold, List.mem_filter] at ha
  obtain ⟨hmem, hq⟩ := ha
  simp only [decide_eq_true_eq] at hq
  simp only [decide_eq_true_eq, not_not, List.mem_append]
  rcases Classical.em (a.id ∈ granted) with hg | hg
  · exact Or.inl hg
  · exact Or.inr (List.mem_map_of_mem Achievement.id
      (mem_checkClickAchievements.2 ⟨hmem, hq.1, hq.2, hg⟩))

/-! ## Power lifecycle (SQL functions `upgrade_user_power`,
`confirm_power_upgrade` over `user_powers` joined with `special_powers`) -/

/-- The columns of a `special_powers` template row read by the lifecycle
functions: `duration` (seconds, NULL = permanent), `max_level`,
`requires_confirmation`. -/
structure SpecialPower where
  duration : Option Nat
  max_level : Nat
  requires_confirmation : Bool
deriving DecidableEq, Repr

/-- A `user_powers` row for one (user, power) pair.  Timestamps are modelled
as integer seconds. -/
structure UserPowerRow where
  level : Nat
  is_active : Bool
  expires_at : Option Int
  uses_left : Option Nat
  upgrade_confirmed : Bool
deriving DecidableEq, Repr

/-- Embedding of the SQL function `upgrade_user_power(p_user_id, p_power_id)`.
`row` is the user's `user_powers` row for this power (`none` when the grant
does not exist) and `sp` the joined `special_powers` template.  In the SQL
`UPDATE ... SET level = level + 1, expires_at = ... power_duration * level ...`
every column reference on the right-hand side denotes the PRE-update value, so
the recomputed expiry uses the OLD level (`up.level`), while the max-level
test uses `level + 1`. -/
def upgrade_user_power (sp : SpecialPower) (row : Option UserPowerRow)
    (now : Int) : Bool × Option UserPowerRow :=
  match row with
  | none => (false, none)
  | some up =>
    if sp.max_level ≤ up.level then (false, some up)
    else if sp.requires_confirmation ∧ up.upgrade_confirmed = false then
      (false, some up)
    else
      let newExpires : Option Int :=
        if sp.max_level ≤ up.level + 1 then none
        else
          match sp.duration with
          | some d => some (now + (d * up.level : Nat))
          | none => none
      (true, some { up with
        level := up.level + 1
        upgrade_confirmed := false
        expires_at := newExpires })

/-- Embedding of the SQL function `confirm_power_upgrade(p_user_id,
p_power_id)`: returns false when the grant does not exist, otherwise sets
`upgrade_confirmed = TRUE` unconditionally and returns true. -/
def confirm_power_upgrade (row : Option UserPowerRow) :
    Bool × Option UserPowerRow :=
  match row with
  | none => (false, none)
  | some up => (true, some { up with upgrade_confirmed := true })

/-- Claim C3 (counterexample): a power with `baseDurationSeconds = 60`,
`maxLevel = 3`, no confirmation required, upgraded from level 1 at `now = 0`,
ends with `expiresAt = 60` (duration times the OLD level), not the claimed
`now + 120` (duration times the new level 2). -/
theorem C3_counterexample :
    (upgrade_user_power ⟨some 60, 3, false⟩
        (some ⟨1, true, some 10, none, false⟩) 0).2.map
        UserPowerRow.expires_at = some (some 60) ∧
      ¬ ((some (60 : Int) : Option Int) = some (0 + 60 * 2)) := by
  decide

/-- Claim C3 (amended): for every power instance with `level < maxLevel` whose
upgrade succeeds (confirmation not required, or already confirmed), the stored
level increases by exactly 1, `upgradeConfirmed` is reset to false, and
`expiresAt` is recomputed as `now + baseDurationSeconds × (newLevel − 1)` (the
pre-upgrade level) unless `newLevel = maxLevel`, in which case `expiresAt`
becomes null; in particular a power with `baseDurationSeconds = 60` upgraded
from level 1 to level 2 ends with `expiresAt = now + 60` seconds. -/
theorem C3_upgrade_success (sp : SpecialPower) (up : UserPowerRow) (now : Int)
    (hlevel : up.level < sp.max_level)
    (hconf : sp.requires_confirmation = false ∨ up.upgrade_confirmed = true) :
    upgrade_user_power sp (some up) now =
      (true, some { up with
        level := up.level + 1
        upgrade_confirmed := false
        expires_at :=
          if up.level + 1 = sp.max_level then none
          else sp.duration.map (fun d => now + (d * up.level : Nat)) }) := by
  have hnle : ¬ sp.max_level ≤ up.level := Nat.not_le.2 hlevel
  have hgate : ¬ (sp.requires_confirmation ∧ up.upgrade_confirmed = false) := by
    rcases hconf with h | h <;> simp [h]
  rw [upgrade_user_power]
  simp only [hnle, if_false, hgate, if_false]
  have hiff : sp.max_level ≤ up.level + 1 ↔ up.level + 1 = sp.max_level := by
    omega
  by_cases hmax : up.level + 1 = sp.max_level
  · simp [hiff, hmax]
  · have : ¬ sp.max_level ≤ up.level + 1 := fun h => hmax (hiff.1 h)
    simp only [this, if_false, hmax, if_false]
    cases sp.duration <;> simp [Option.map]

/-- Witness for C3: the concrete leveling-arithmetic instance — duration 60,
max level 3, level 1 → 2 at `now = 0` yields `expiresAt = 60`. -/
theorem C3_witness :
    upgrade_user_power ⟨some 60, 3, false⟩
        (some ⟨1, true, some 10, none, false⟩) 0 =
      (true, some ⟨2, true, some 60, none, false⟩) := by
  have h := C3_upgrade_success ⟨some 60, 3, false⟩ ⟨1, true, some 10, none, false⟩
    0 (by decide) (Or.inl rfl)
  rw [h]
  decide

/-- Claim C7: with `requiresConfirmation = true` and `upgradeConfirmed =
false`, `upgrade` returns false and changes no state; `confirmUpgrade` fails
when the grant does not exist and otherwise unconditionally sets
`upgradeConfirmed = true`; and immediately after a successful `confirmUpgrade`
the same upgrade succeeds (for a power below max level). -/
theorem C7_confirmation_gating (sp : SpecialPower) (up : UserPowerRow)
    (now : Int) :
    (sp.requires_confirmation = true → up.upgrade_confirmed = false →
      upgrade_user_power sp (some up) now = (false, some up)) ∧
    confirm_power_upgrade none = (false, none) ∧
    confirm_power_upgrade (some up) =
      (true, some { up with upgrade_confirmed := true }) ∧
    (up.level < sp.max_level →
      (upgrade_user_power sp ((confirm_power_upgrade (some up)).2) now).1 =
        true) := by
  refine ⟨fun hreq hconf => ?_, rfl, rfl, fun hlevel => ?_⟩
  · rw [upgrade_user_power]
    by_cases hmax : sp.max_level ≤ up.level
    · simp [hmax]
    · simp [hmax, hreq, hconf]
  · have h := C3_upgrade_success sp { up with upgrade_confirmed := true } now
      hlevel (Or.inr rfl)
    rw [confirm_power_upgrade]
    simp only [h]

/-- Witness for C7: the gating instances at a concrete power (duration 60,
max level 3, confirmation required) and instance (level 1, unconfirmed). -/
theorem C7_witness :
    (upgrade_user_power ⟨some 60, 3, true⟩
        (some ⟨1, true, some 10, none, false⟩) 0 =
      (false, some ⟨1, true, some 10, none, false⟩)) ∧
    confirm_power_upgrade (some ⟨1, true, some 10, none, false⟩) =
      (true, some ⟨1, true, some 10, none, true⟩) ∧
    (upgrade_user_power ⟨some 60, 3, true⟩
        ((confirm_power_upgrade (some ⟨1, true, some 10, none, false⟩)).2)
        0).1 = true := by
  have h := C7_confirmation_gating ⟨some 60, 3, true⟩
    ⟨1, true, some 10, none, false⟩ 0
  exact ⟨h.1 rfl rfl, h.2.2.1, h.2.2.2 (by decide)⟩

/-! ## Click aggregator (`processClickQueue` and `calculateFibonacciBackoff`
in the clicker-game hook) -/

/-- The `clickQueueRef` state of the hook. -/
structure ClickQueueState where
  pendingClicks : Nat
  isProcessing : Bool
  lastProcessedTimestamp : Nat
deriving DecidableEq, Repr

/-- Aggregator state: the click queue plus `serverConfirmedClicksRef`. -/
structure AggregatorState where
  queue : ClickQueueState
  serverConfirmedClicks : Nat
deriving DecidableEq, Repr

/-- Result of one `updateClickAction` network call: success carries the
optional `newCount` field of the response; failure records whether the error
message contains `Authentication`. -/
inductive UpdateResult where
  | success (newCount : Option Nat)
  | failure (isAuthError : Bool)
deriving DecidableEq, Repr

/-- The environment of a single `processClickQueue` invocation: whether a
user is logged in, the result of the first `updateClickAction` call, whether
`auth.refreshSession` succeeds, the result of the retry call, how many clicks
are enqueued while the request is in flight, and the current time. -/
structure FlushEnv where
  userPresent : Bool
  result : UpdateResult
  refreshOk : Bool
  retryResult : UpdateResult
  enqueuedDuringFlight : Nat
  now : Nat
deriving DecidableEq, Repr

/-- Observable outcome of one `processClickQueue` invocation: the state after
the `finally` block, the totals carried by the `updateClickAction` requests in
order, the number of `refreshSession` calls, and whether a user-visible
failure (`toast.error`) was surfaced. -/
structure FlushOutcome where
  state : AggregatorState
  requests : List Nat
  refreshCalls : Nat
  surfacedError : Bool
deriving DecidableEq, Repr

/-- JS `o || d` for an optional number: `undefined` and `0` are falsy and
yield the default.  Models `result.newCount || newTotal`. -/
def jsOrDefault (o : Option Nat) (d : Nat) : Nat :=
  match o with
  | some n => if n = 0 then d else n
  | none => d

/-- Embedding of `processClickQueue`.  The guard returns immediately when a
flush is in flight, nothing is pending, or no user is logged in.  Otherwise
the full total `serverConfirmedClicks + pendingClicks` is sent; on success the
confirmed count becomes `newCount || newTotal` and exactly the flushed amount
is subtracted from the pending count (clicks enqueued mid-flight remain).  On
an authentication failure the session is refreshed once and, only if that
succeeds, the same total is retried exactly once; any other failure (or a
failed refresh or retry) surfaces an error and leaves the pending count and
confirmed count untouched.  `isProcessing` is restored to false in `finally`;
`lastProcessedTimestamp` is set to the current time on the success paths. -/
def processClickQueue (s : AggregatorState) (env : FlushEnv) : FlushOutcome :=
  if s.queue.isProcessing || s.queue.pendingClicks == 0 || !env.userPresent then
    { state := s, requests := [], refreshCalls := 0, surfacedError := false }
  else
    let clicksToProcess := s.queue.pendingClicks
    let newTotal := s.serverConfirmedClicks + clicksToProcess
    let pendingMid := s.queue.pendingClicks + env.enqueuedDuringFlight
    match env.result with
    | UpdateResult.success newCount =>
      { state :=
          { queue :=
              { pendingClicks := pendingMid - clicksToProcess
                isProcessing := false
                lastProcessedTimestamp := env.now }
            serverConfirmedClicks := jsOrDefault newCount newTotal }
        requests := [newTotal], refreshCalls := 0, surfacedError := false }
    | UpdateResult.failure isAuth =>
      if isAuth then
        if env.refreshOk then
          match env.retryResult with
          | UpdateResult.success newCount =>
            { state :=
                { queue :=
                    { pendingClicks := pendingMid - clicksToProcess
                      isProcessing := false
                      lastProcessedTimestamp := env.now }
                  serverConfirmedClicks := jsOrDefault newCount newTotal }
              requests := [newTotal, newTotal], refreshCalls := 1
              surfacedError := false }
          | UpdateResult.failure _ =>
            { state :=
                { queue :=
                    { pendingClicks := pendingMid
                      isProcessing := false
                      lastProcessedTimestamp := s.queue.lastProcessedTimestamp }
                  serverConfirmedClicks := s.serverConfirmedClicks }
              requests := [newTotal, newTotal], refreshCalls := 1
              surfacedError := true }
        else
          { state :=
              { queue :=
                  { pendingClicks := pendingMid
                    isProcessing := false
                    lastProcessedTimestamp := s.queue.lastProcessedTimestamp }
                serverConfirmedClicks := s.serverConfirmedClicks }
            requests := [newTotal], refreshCalls := 1, surfacedError := true }
      else
        { state :=
            { queue :=
                { pendingClicks := pendingMid
                  isProcessing := false
                  lastProcessedTimestamp := s.queue.lastProcessedTimestamp }
              serverConfirmedClicks := s.serverConfirmedClicks }
          requests := [newTotal], refreshCalls := 0, surfacedError := true }

/-- Embedding of `calculateFibonacciBackoff(lastDelay)`:
`a = lastDelay === 0 ? 100 : lastDelay * 1.5`, `b = lastDelay`,
`min(a + b, 5000)`.  Millisecond values are modelled as rationals since the
source computes with JS numbers and a factor of 1.5. -/
def calculateFibonacciBackoff (lastDelay : ℚ) : ℚ :=
  let a : ℚ := if lastDelay = 0 then 100 else lastDelay * 1.5
  let b : ℚ := lastDelay
  let nextDelay := a + b
  min nextDelay 5000

theorem processClickQueue_guard_open (s : AggregatorState) (env : FlushEnv)
    (hproc : s.queue.isProcessing = false) (hpend : 0 < s.queue.pendingClicks)
    (huser : env.userPresent = true) :
    (s.queue.isProcessing || s.queue.pendingClicks == 0 || !env.userPresent) =
      false := by
  have h0 : (s.queue.pendingClicks == 0) = false :=
    beq_eq_false_iff_ne.2 (Nat.pos_iff_ne_zero.1 hpend)
  simp [hproc, h0, huser]

/-- Claim C2: a flush with a positive pending count sends one authoritative
request carrying `serverConfirmedTotal + pendingTotal` (the full new total);
on a success whose response carries a (nonzero) total `t`, the confirmed count
becomes `t` and exactly the flushed amount is subtracted from the pending
count, so clicks enqueued while the request was in flight remain pending. -/
theorem C2_flush_full_total (s : AggregatorState) (env : FlushEnv) (t : Nat)
    (hproc : s.queue.isProcessing = false) (hpend : 0 < s.queue.pendingClicks)
    (huser : env.userPresent = true)
    (hres : env.result = UpdateResult.success (some t)) (ht : t ≠ 0) :
    (processClickQueue s env).requests =
      [s.serverConfirmedClicks + s.queue.pendingClicks] ∧
    (processClickQueue s env).state.serverConfirmedClicks = t ∧
    (processClickQueue s env).state.queue.pendingClicks =
      env.enqueuedDuringFlight := by
  rw [processClickQueue,
    if_neg (by simp [processClickQueue_guard_open s env hproc hpend huser])]
  simp only [hres]
  refine ⟨by trivial, ?_, ?_⟩
  · show jsOrDefault (some t)
        (s.serverConfirmedClicks + s.queue.pendingClicks) = t
    simp only [jsOrDefault]
    exact if_neg ht
  · show s.queue.pendingClicks + env.enqueuedDuringFlight -
        s.queue.pendingClicks = env.enqueuedDuringFlight
    omega

/-- Witness for C2: confirmed 10, 3 pending, 2 clicks arrive mid-flight, and
the store answers 13: the request carries 13, the confirmed count becomes 13
and the 2 mid-flight clicks remain pending. -/
theorem C2_witness :
    (processClickQueue ⟨⟨3, false, 0⟩, 10⟩
        ⟨true, UpdateResult.success (some 13), false,
          UpdateResult.failure false, 2, 99⟩).requests = [13] ∧
    (processClickQueue ⟨⟨3, false, 0⟩, 10⟩
        ⟨true, UpdateResult.success (some 13), false,
          UpdateResult.failure false, 2, 99⟩).state.serverConfirmedClicks =
      13 ∧
    (processClickQueue ⟨⟨3, false, 0⟩, 10⟩
        ⟨true, UpdateResult.success (some 13), false,
          UpdateResult.failure false, 2, 99⟩).state.queue.pendingClicks = 2 :=
  C2_flush_full_total ⟨⟨3, false, 0⟩, 10⟩
    ⟨true, UpdateResult.success (some 13), false, UpdateResult.failure false,
      2, 99⟩ 13 rfl (by decide) rfl rfl (by decide)

/-- Claim C6: the backoff delay is seeded at 100 ms when the previous delay is
zero, otherwise equals `min(1.5 × previousDelay + previousDelay, 5000)`, and
never exceeds the 5-second cap. -/
theorem C6_backoff_growth (d : ℚ) (hd : 0 ≤ d) :
    (d = 0 → calculateFibonacciBackoff d = 100) ∧
    (d ≠ 0 → calculateFibonacciBackoff d = min (1.5 * d + d) 5000) ∧
    calculateFibonacciBackoff d ≤ 5000 := by
  unfold calculateFibonacciBackoff
  refine ⟨fun h => ?_, fun h => ?_, ?_⟩
  · rw [if_pos h, h]
    norm_num
  · rw [if_neg h, mul_comm]
  · by_cases h : d = 0
    · rw [if_pos h, h]
      norm_num
    · rw [if_neg h]
      exact min_le_right _ _

/-- Witness for C6: a previous delay of 2000 ms grows to
`min(1.5·2000 + 2000, 5000) = 5000`, at the cap. -/
theorem C6_witness :
    calculateFibonacciBackoff 2000 = min (1.5 * 2000 + 2000) 5000 ∧
    calculateFibonacciBackoff 2000 ≤ 5000 := by
  have h := C6_backoff_growth 2000 (by norm_num)
  exact ⟨h.2.1 (by norm_num), h.2.2⟩

/-- Claim C5: on an authentication failure the session is refreshed once and,
when the refresh succeeds, the same total is retried exactly once before any
user-visible failure; when the refresh itself fails no retry happens and the
failure is surfaced; any non-authentication failure is surfaced with no
refresh and no retry.  In every terminal-failure case nothing is subtracted
from the pending count and the confirmed count is untouched. -/
theorem C5_failure_retry (s : AggregatorState) (env : FlushEnv)
    (hproc : s.queue.isProcessing = false) (hpend : 0 < s.queue.pendingClicks)
    (huser : env.userPresent = true) :
    (env.result = UpdateResult.failure true → env.refreshOk = true →
      (processClickQueue s env).requests =
        [s.serverConfirmedClicks + s.queue.pendingClicks,
          s.serverConfirmedClicks + s.queue.pendingClicks] ∧
      (processClickQueue s env).refreshCalls = 1 ∧
      (∀ b, env.retryResult = UpdateResult.failure b →
        (processClickQueue s env).surfacedError = true ∧
        (processClickQueue s env).state.queue.pendingClicks =
          s.queue.pendingClicks + env.enqueuedDuringFlight ∧
        (processClickQueue s env).state.serverConfirmedClicks =
          s.serverConfirmedClicks)) ∧
    (env.result = UpdateResult.failure true → env.refreshOk = false →
      (processClickQueue s env).requests =
        [s.serverConfirmedClicks + s.queue.pendingClicks] ∧
      (processClickQueue s env).refreshCalls = 1 ∧
      (processClickQueue s env).surfacedError = true ∧
      (processClickQueue s env).state.queue.pendingClicks =
        s.queue.pendingClicks + env.enqueuedDuringFlight ∧
      (processClickQueue s env).state.serverConfirmedClicks =
        s.serverConfirmedClicks) ∧
    (env.result = UpdateResult.failure false →
      (processClickQueue s env).requests =
        [s.serverConfirmedClicks + s.queue.pendingClicks] ∧
      (processClickQueue s env).refreshCalls = 0 ∧
      (processClickQueue s env).surfacedError = true ∧
      (processClickQueue s env).state.queue.pendingClicks =
        s.queue.pendingClicks + env.enqueuedDuringFlight ∧
      (processClickQueue s env).state.serverConfirmedClicks =
        s.serverConfirmedClicks) := by
  rw [processClickQueue,
    if_neg (by simp [processClickQueue_guard_open s env hproc hpend huser])]
  refine ⟨fun hres hrefresh => ?_, fun hres hrefresh => ?_, fun hres => ?_⟩
  · cases hretry : env.retryResult with
    | success nc =>
        refine ⟨?_, ?_, fun b hb => ?_⟩
        · simp [hres, hrefresh, hretry]
        · simp [hres, hrefresh, hretry]
        · exact UpdateResult.noConfusion hb
    | failure b0 =>
        refine ⟨?_, ?_, fun b hb => ?_⟩
        · simp [hres, hrefresh, hretry]
        · simp [hres, hrefresh, hretry]
        · refine ⟨?_, ?_, ?_⟩ <;> simp [hres, hrefresh, hretry]
  · refine ⟨?_, ?_, ?_, ?_, ?_⟩ <;> simp [hres, hrefresh]
  · refine ⟨?_, ?_, ?_, ?_, ?_⟩ <;> simp [hres]

/-- Witness for C5: an authentication failure with a successful refresh and a
failing retry, at confirmed 10 with 3 pending: two requests carrying 13, one
refresh, surfaced failure, pending preserved, confirmed untouched. -/
theorem C5_witness :
    (processClickQueue ⟨⟨3, false, 0⟩, 10⟩
        ⟨true, UpdateResult.failure true, true, UpdateResult.failure false,
          0, 99⟩).requests = [13, 13] ∧
    (processClickQueue ⟨⟨3, false, 0⟩, 10⟩
        ⟨true, UpdateResult.failure true, true, UpdateResult.failure false,
          0, 99⟩).refreshCalls = 1 ∧
    (processClickQueue ⟨⟨3, false, 0⟩, 10⟩
        ⟨true, UpdateResult.failure true, true, UpdateResult.failure false,
          0, 99⟩).surfacedError = true ∧
    (processClickQueue ⟨⟨3, false, 0⟩, 10⟩
        ⟨true, UpdateResult.failure true, true, UpdateResult.failure false,
          0, 99⟩).state.queue.pendingClicks = 3 ∧
    (processClickQueue ⟨⟨3, false, 0⟩, 10⟩
        ⟨true, UpdateResult.failure true, true, UpdateResult.failure false,
          0, 99⟩).state.serverConfirmedClicks = 10 := by
  have h := (C5_failure_retry ⟨⟨3, false, 0⟩, 10⟩
    ⟨true, UpdateResult.failure true, true, UpdateResult.failure false, 0, 99⟩
    rfl (by decide) rfl).1 rfl rfl
  exact ⟨h.1, h.2.1, (h.2.2 false rfl).1, (h.2.2 false rfl).2.1,
    (h.2.2 false rfl).2.2⟩

/-- Modelled from the spec: the Ledger operation
`setTotal(userId, newTotal) → {confirmedTotal}` of §6 — atomic, idempotent on
the same value, and rejecting decreases.  The server action
`updateClickAction` that carries the authoritative write is not under the
repository sources; only its caller `processClickQueue` is. -/
def setTotal (current newTotal : Nat) : Nat × Bool :=
  if newTotal < current then (current, false) else (newTotal, true)

/-- One flush of the aggregator against the spec-modelled Ledger: the request
carries `serverConfirmedClicks + pendingClicks`; the Ledger either confirms
that total or rejects a decrease, and `processClickQueue` consumes the
result.  Returns the new aggregator state and the new Ledger total. -/
def flushAgainstLedger (s : AggregatorState) (ledger : Nat)
    (extra now : Nat) : AggregatorState × Nat :=
  if s.queue.isProcessing || s.queue.pendingClicks == 0 then (s, ledger)
  else
    let newTotal := s.serverConfirmedClicks + s.queue.pendingClicks
    let r := setTotal ledger newTotal
    let env : FlushEnv :=
      { userPresent := true
        result :=
          if r.2 then UpdateResult.success (some r.1)
          else UpdateResult.failure false
        refreshOk := false
        retryResult := UpdateResult.failure false
        enqueuedDuringFlight := extra
        now := now }
    ((processClickQueue s env).state, r.1)

/-- A step of the aggregator system: either `enqueue` adds clicks to the
pending counter (`handleClickUpdate`), or a flush cycle runs against the
Ledger.  The single-flight guard makes one flush atomic here. -/
inductive AggStep : AggregatorState × Nat → AggregatorState × Nat → Prop where
  | enqueue (p : AggregatorState × Nat) (n : Nat) :
      AggStep p
        (⟨{ p.1 with queue :=
            { p.1.queue with
              pendingClicks := p.1.queue.pendingClicks + n } }, p.2⟩)
  | flush (p : AggregatorState × Nat) (extra now : Nat) :
      AggStep p (flushAgainstLedger p.1 p.2 extra now)

theorem aggStep_mono {p q : AggregatorState × Nat} (h : AggStep p q) :
    p.1.serverConfirmedClicks ≤ q.1.serverConfirmedClicks ∧ p.2 ≤ q.2 := by
  cases h with
  | enqueue n => exact ⟨le_refl _, le_refl _⟩
  | flush extra now =>
      by_cases hguard : (p.1.queue.isProcessing ||
          p.1.queue.pendingClicks == 0) = true
      · simp [flushAgainstLedger, hguard]
      · by_cases hcas : p.1.serverConfirmedClicks + p.1.queue.pendingClicks <
            p.2
        · simp [flushAgainstLedger, processClickQueue, setTotal, jsOrDefault,
            hguard, hcas]
        · simp [flushAgainstLedger, processClickQueue, setTotal, jsOrDefault,
            hguard, hcas]
          omega

/-- Claim C4: over every sequence of enqueue and flush steps, both the
aggregator's server-confirmed total and the Ledger total are non-decreasing,
and a `setTotal` write carrying a total lower than the current stored total
is rejected (the stored total is kept and failure is signalled) rather than
applied. -/
theorem C4_monotonicity :
    (∀ p q : AggregatorState × Nat, Relation.ReflTransGen AggStep p q →
      p.1.serverConfirmedClicks ≤ q.1.serverConfirmedClicks ∧ p.2 ≤ q.2) ∧
    (∀ current newTotal : Nat, newTotal < current →
      setTotal current newTotal = (current, false)) := by
  constructor
  · intro p q h
    induction h with
    | refl => exact ⟨le_refl _, le_refl _⟩
    | tail hsteps hstep ih =>
        have h2 := aggStep_mono hstep
        exact ⟨le_trans ih.1 h2.1, le_trans ih.2 h2.2⟩
  · intro current newTotal h
    rw [setTotal, if_pos h]

/-- Witness for C4: one flush step from confirmed 5 with 2 pending against a
Ledger at 5 does not decrease either total, and a write of 3 against a stored
total of 5 is rejected. -/
theorem C4_witness :
    ((⟨⟨⟨2, false, 0⟩, 5⟩, 5⟩ :
        AggregatorState × Nat).1.serverConfirmedClicks ≤
      (flushAgainstLedger ⟨⟨2, false, 0⟩, 5⟩ 5 0 7).1.serverConfirmedClicks ∧
      (⟨⟨⟨2, false, 0⟩, 5⟩, 5⟩ : AggregatorState × Nat).2 ≤
        (flushAgainstLedger ⟨⟨2, false, 0⟩, 5⟩ 5 0 7).2) ∧
    setTotal 5 3 = (5, false) := by
  refine ⟨?_, C4_monotonicity.2 5 3 (by decide)⟩
  exact C4_monotonicity.1 (⟨⟨⟨2, false, 0⟩, 5⟩, 5⟩ : AggregatorState × Nat)
    (flushAgainstLedger ⟨⟨2, false, 0⟩, 5⟩ 5 0 7)
    (Relation.ReflTransGen.single (AggStep.flush _ 0 7))

/-! ## Power-view equality (`arePowersEqual` in the achievements hook) -/

/-- A `UserPower` record as compared by `arePowersEqual`: the row id used as
map key, the compared fields (`power_id`, `is_active`, `upgrade_confirmed`,
optional `level`), and the timestamp fields the function never reads. -/
structure UserPowerView where
  id : Nat
  power_id : Nat
  is_active : Bool
  upgrade_confirmed : Bool
  level : Option Nat
  acquired_at : Int
  expires_at : Option Int
deriving DecidableEq, Repr

/-- Embedding of `new Map(powers1.map(p => [p.id, p])).get(i)`: a JS map built from a list
keeps the LAST entry for a duplicated key, so lookup is `find?` on the
reversed list. -/
def powerMapGet (powers1 : List UserPowerView) (i : Nat) :
    Option UserPowerView :=
  powers1.reverse.find? (fun p => p.id == i)

/-- Embedding of `arePowersEqual(powers1, powers2)` from the achievements
hook: equal lengths, and every power of `powers2` matches the power of
`powers1` with the same row id on `is_active`, `power_id`,
`upgrade_confirmed`, and `level ?? 1`.  Timestamps are not read. -/
def arePowersEqual (powers1 powers2 : List UserPowerView) : Bool :=
  if powers1.length ≠ powers2.length then false
  else
    powers2.all (fun p2 =>
      match powerMapGet powers1 p2.id with
      | none => false
      | some p1 =>
        if p1.is_active ≠ p2.is_active ∨ p1.power_id ≠ p2.power_id ∨
            p1.upgrade_confirmed ≠ p2.upgrade_confirmed then false
        else p1.level.getD 1 == p2.level.getD 1)

/-- The tuple of fields `arePowersEqual` actually compares (with the
`level ?? 1` default applied). -/
def viewKey (p : UserPowerView) : Nat × Nat × Bool × Bool × Nat :=
  (p.id, p.power_id, p.is_active, p.upgrade_confirmed, p.level.getD 1)

/-- Claim C9 (counterexample): two one-power views that agree on power
identity, active flag and level — differing only in `upgrade_confirmed` —
compare UNEQUAL, because the function also compares `upgrade_confirmed`. -/
theorem C9_counterexample :
    ([⟨1, 1, true, false, some 1, 0, none⟩] : List UserPowerView).map
        (fun p => (p.id, p.power_id, p.is_active, p.level)) =
      ([⟨1, 1, true, true, some 1, 0, none⟩] : List UserPowerView).map
        (fun p => (p.id, p.power_id, p.is_active, p.level)) ∧
    arePowersEqual [⟨1, 1, true, false, some 1, 0, none⟩]
      [⟨1, 1, true, true, some 1, 0, none⟩] = false := by
  decide

/-- Claim C9 (amended): the equality check compares row id, power identity,
active flag, level (with a missing level defaulting to 1) and the
upgrade-confirmed flag, and never compares timestamps: any two views with
distinct row ids that agree componentwise on those fields — the timestamp
columns being arbitrary — compare equal. -/
theorem C9_equality_ignores_timestamps (ps1 ps2 : List UserPowerView)
    (hkeys : ps1.map viewKey = ps2.map viewKey)
    (hnodup : (ps1.map UserPowerView.id).Nodup) :
    arePowersEqual ps1 ps2 = true := by
  have hlen : ps1.length = ps2.length := by
    have := congrArg List.length hkeys
    simpa using this
  rw [arePowersEqual, if_neg (by omega)]
  rw [List.all_eq_true]
  intro p2 hp2
  obtain ⟨i, hi, hgot⟩ := List.mem_iff_getElem.1 hp2
  have hi1 : i < ps1.length := by omega
  have hkey : viewKey (ps1.get ⟨i, hi1⟩) = viewKey p2 := by
    have h1 : (ps1.map viewKey)[i]? = (ps2.map viewKey)[i]? := by rw [hkeys]
    rw [List.getElem?_map, List.getElem?_map,
      List.getElem?_eq_getElem hi1, List.getElem?_eq_getElem hi] at h1
    simp at h1
    simpa [List.get_eq_getElem, hgot] using h1
  set q1 := ps1.get ⟨i, hi1⟩ with hq1
  have hq1mem : q1 ∈ ps1 := by
    rw [hq1, List.get_eq_getElem]
    exact List.getElem_mem hi1
  have hid : q1.id = p2.id := congrArg (fun t => t.1) hkey
  have hfind : ∃ r, powerMapGet ps1 p2.id = some r := by
    rw [powerMapGet, ← Option.isSome_iff_exists]
    rw [List.find?_isSome]
    exact ⟨q1, List.mem_reverse.2 hq1mem, by simp [hid]⟩
  obtain ⟨r, hr⟩ := hfind
  have hrmem : r ∈ ps1 :=
    List.mem_reverse.1 (List.mem_of_find?_eq_some hr)
  have hrid : r.id = p2.id := by
    have := List.find?_some hr
    simpa using this
  have hreq : r = q1 :=
    List.inj_on_of_nodup_map hnodup hrmem hq1mem (by rw [hrid, hid])
  rw [hr, hreq]
  have hact : q1.is_active = p2.is_active :=
    congrArg (fun t => t.2.2.1) hkey
  have hpid : q1.power_id = p2.power_id :=
    congrArg (fun t => t.2.1) hkey
  have hconf : q1.upgrade_confirmed = p2.upgrade_confirmed :=
    congrArg (fun t => t.2.2.2.1) hkey
  have hlev : q1.level.getD 1 = p2.level.getD 1 :=
    congrArg (fun t => t.2.2.2.2) hkey
  simp [hact, hpid, hconf, hlev]

/-- Witness for C9: two concrete two-power views differing only in their
timestamp columns compare equal. -/
theorem C9_witness :
    arePowersEqual
      [⟨1, 7, true, false, some 2, 0, some 50⟩,
        ⟨2, 8, false, true, none, 3, none⟩]
      [⟨1, 7, true, false, some 2, 1000, some 99⟩,
        ⟨2, 8, false, true, some 1, -5, some 123⟩] = true := by
  have h := C9_equality_ignores_timestamps
    [⟨1, 7, true, false, some 2, 0, some 50⟩,
      ⟨2, 8, false, true, none, 3, none⟩]
    [⟨1, 7, true, false, some 2, 1000, some 99⟩,
      ⟨2, 8, false, true, some 1, -5, some 123⟩]
    (by decide) (by decide)
  exact h

/-! ## Click multiplier (`getClickMultiplier` in the achievements hook and the
displayed power bonus in the powers panel) -/

/-- The `effect_type` column of `special_powers`. -/
inductive PowerEffectType where
  | multiplier
  | auto_click
  | permanent
deriving DecidableEq, Repr

/-- A `special_powers` template as read by the multiplier derivation:
`effect_type` and `effect_value` (a JS number, modelled as a rational). -/
structure Power where
  effect_type : PowerEffectType
  effect_value : ℚ
deriving DecidableEq, Repr

/-- A `user_powers` entry of the hook's `activePowers` state: its level and
the optionally joined `power` template. -/
structure UserPower where
  level : Nat
  power : Option Power
deriving DecidableEq, Repr

/-- Embedding of `up.power?.effect_type === 'multiplier'`. -/
def isMultiplierPower (up : UserPower) : Bool :=
  match up.power with
  | some p => p.effect_type = PowerEffectType.multiplier
  | none => false

/-- Embedding of `up.power?.effect_value || 1`: a missing join or a zero value is falsy
and defaults to 1. -/
def powerEffectValue (up : UserPower) : ℚ :=
  match up.power with
  | some p => if p.effect_value = 0 then 1 else p.effect_value
  | none => 1

/-- Embedding of `getClickMultiplier()` from the achievements hook: the
effect values of the active multiplier-type powers, multiplied together with
`reduce`, and 1 when there is none.  The instance level is never read. -/
def getClickMultiplier (activePowers : List UserPower) : ℚ :=
  let multiplierPowers :=
    (activePowers.filter isMultiplierPower).map powerEffectValue
  if multiplierPowers.isEmpty then 1
  else multiplierPowers.foldl (fun total m => total * m) 1

/-- Embedding of the displayed effective bonus of a leveled power from the
powers panel: `(powerData?.effect_value || 1) * (userPower.level || 1)`. -/
def displayedPowerBonus (powerData : Option Power) (level : Nat) : ℚ :=
  (match powerData with
   | some p => if p.effect_value = 0 then 1 else p.effect_value
   | none => 1) *
  (if level = 0 then 1 else (level : ℚ))

/-- Modelled from the claim's words for comparison: a click multiplier that
combines the LEVEL-SCALED effective values (`baseEffectValue × level`) of all
active multiplier-type powers, defaulting to 1 when none is active. -/
def specClickMultiplierLeveled (activePowers : List UserPower) : ℚ :=
  ((activePowers.filter isMultiplierPower).map
    (fun up =>
      (match up.power with
       | some p => p.effect_value
       | none => 0) * (up.level : ℚ))).foldl (fun total m => total * m) 1

theorem getClickMultiplier_eq_prod (activePowers : List UserPower) :
    getClickMultiplier activePowers =
      ((activePowers.filter isMultiplierPower).map powerEffectValue).prod := by
  rw [getClickMultiplier, List.prod_eq_foldl]
  by_cases h :
      ((activePowers.filter isMultiplierPower).map powerEffectValue).isEmpty
  · rw [if_pos h]
    rw [List.isEmpty_iff] at h
    rw [h]
    rfl
  · rw [if_neg h]

/-- Claim C8 (counterexample): one active multiplier power with base effect
value 2 at level 3 yields a click multiplier of 2, not the level-scaled 6 the
claim requires — `getClickMultiplier` never reads the level. -/
theorem C8_counterexample :
    getClickMultiplier [⟨3, some ⟨PowerEffectType.multiplier, 2⟩⟩] = 2 ∧
      specClickMultiplierLeveled
        [⟨3, some ⟨PowerEffectType.multiplier, 2⟩⟩] = 6 ∧
      getClickMultiplier [⟨3, some ⟨PowerEffectType.multiplier, 2⟩⟩] ≠
        specClickMultiplierLeveled
          [⟨3, some ⟨PowerEffectType.multiplier, 2⟩⟩] := by
  refine ⟨?_, ?_, ?_⟩ <;> norm_num [getClickMultiplier,
    specClickMultiplierLeveled, isMultiplierPower, powerEffectValue,
    List.filter, List.foldl]

/-- Claim C8 (amended): the displayed effective bonus of a leveled power is
`baseEffectValue × level`, but the derived click multiplier combines the
UNSCALED base effect values (each defaulting to 1 when missing or zero) of
all simultaneously active multiplier-type powers multiplicatively — it is
invariant under any change of levels — and defaults to 1 when no
multiplier-type power is active. -/
theorem C8_click_multiplier (l1 l2 : List UserPower) (p : Power) (level : Nat)
    (hv : p.effect_value ≠ 0) (hl : level ≠ 0) :
    getClickMultiplier (l1 ++ l2) =
      getClickMultiplier l1 * getClickMultiplier l2 ∧
    (∀ f : UserPower → Nat,
      getClickMultiplier (l1.map (fun up => { up with level := f up })) =
        getClickMultiplier l1) ∧
    (l1.filter isMultiplierPower = [] → getClickMultiplier l1 = 1) ∧
    displayedPowerBonus (some p) level = p.effect_value * level := by
  refine ⟨?_, ?_, ?_, ?_⟩
  · rw [getClickMultiplier_eq_prod, getClickMultiplier_eq_prod,
      getClickMultiplier_eq_prod, List.filter_append, List.map_append,
      List.prod_append]
  · intro f
    rw [getClickMultiplier_eq_prod, getClickMultiplier_eq_prod]
    congr 1
    induction l1 with
    | nil => rfl
    | cons up ups ih =>
        simp only [List.map_cons, List.filter_cons]
        have hmul : isMultiplierPower { up with level := f up } =
            isMultiplierPower up := rfl
        have hval : powerEffectValue { up with level := f up } =
            powerEffectValue up := rfl
        by_cases h : isMultiplierPower up = true
        · rw [hmul, h, if_pos rfl, if_pos rfl, List.map_cons, List.map_cons,
            hval, ih]
        · rw [hmul]
          rw [Bool.not_eq_true] at h
          rw [h]
          simpa using ih
  · intro h
    rw [getClickMultiplier_eq_prod, h]
    rfl
  · rw [displayedPowerBonus, if_neg hv, if_neg hl]

/-- Witness for C8: two active multiplier powers of base values 2 and 3 at
levels 5 and 7 combine to 6 whatever the levels, and the displayed bonus of a
value-2 power at level 3 is 6. -/
theorem C8_witness :
    getClickMultiplier
        ([⟨5, some ⟨PowerEffectType.multiplier, 2⟩⟩] ++
          [⟨7, some ⟨PowerEffectType.multiplier, 3⟩⟩]) =
      getClickMultiplier [⟨5, some ⟨PowerEffectType.multiplier, 2⟩⟩] *
        getClickMultiplier [⟨7, some ⟨PowerEffectType.multiplier, 3⟩⟩] ∧
    displayedPowerBonus (some ⟨PowerEffectType.multiplier, 2⟩) 3 =
      2 * (3 : ℚ) := by
  have h := C8_click_multiplier
    [⟨5, some ⟨PowerEffectType.multiplier, 2⟩⟩]
    [⟨7, some ⟨PowerEffectType.multiplier, 3⟩⟩]
    ⟨PowerEffectType.multiplier, 2⟩ 3 (by norm_num) (by norm_num)
  exact ⟨h.1, by simpa using h.2.2.2⟩

/-! ## Active-power fetch with repair side effect (`getActiveUserPowers` in
`src/app/actions/achievement-actions.ts`) -/

/-- A `user_powers` row as read and written by `getActiveUserPowers`:
`level` and `upgrade_confirmed` are nullable columns. -/
structure PowerRow where
  id : Nat
  is_active : Bool
  expires_at : Option Int
  level : Option Nat
  upgrade_confirmed : Option Bool
deriving DecidableEq, Repr

/-- The query condition `expires_at.gt.now OR expires_at.is.null`. -/
def isNonExpired (now : Int) (r : PowerRow) : Bool :=
  match r.expires_at with
  | none => true
  | some t => now < t

/-- The repair update applied to a non-expired inactive row:
`is_active = true, level = level ?? 1, upgrade_confirmed =
upgrade_confirmed ?? false`. -/
def activateRow (r : PowerRow) : PowerRow :=
  { r with
    is_active := true
    level := some (r.level.getD 1)
    upgrade_confirmed := some (r.upgrade_confirmed.getD false) }

/-- The defaulting mapping applied to every returned row:
`{...p, level: p.level ?? 1, upgrade_confirmed: p.upgrade_confirmed ??
false}`. -/
def withPowerDefaults (r : PowerRow) : PowerRow :=
  { r with
    level := some (r.level.getD 1)
    upgrade_confirmed := some (r.upgrade_confirmed.getD false) }

/-- Embedding of `getActiveUserPowers(userId)`: `db` is the user's
`user_powers` rows (the store is assumed error-free).  The first query
selects active non-expired rows; if none exist, inactive non-expired rows are
each updated (by row id) to active with defaulted level and confirmation, the
active non-expired rows are re-fetched, and the result is returned with
defaults applied.  Returns (returned rows, resulting store rows). -/
def getActiveUserPowers (db : List PowerRow) (now : Int) :
    List PowerRow × List PowerRow :=
  let data := db.filter (fun r => r.is_active && isNonExpired now r)
  if data.isEmpty then
    let nonExpiredPowers :=
      db.filter (fun r => !r.is_active && isNonExpired now r)
    if nonExpiredPowers.isEmpty then (data.map withPowerDefaults, db)
    else
      let updatedDb := db.map (fun r =>
        if nonExpiredPowers.any (fun p => p.id == r.id) then activateRow r
        else r)
      let updatedPowers :=
        updatedDb.filter (fun r => r.is_active && isNonExpired now r)
      (updatedPowers.map withPowerDefaults, updatedDb)
  else (data.map withPowerDefaults, db)

theorem filter_of_map {α β : Type} (f : α → β) (p : β → Bool) (l : List α) :
    (l.map f).filter p = (l.filter (fun a => p (f a))).map f := by
  induction l with
  | nil => rfl
  | cons a as ih =>
      cases hp : p (f a) <;> simp [hp, ih]

/-- Claim C10: fetching a user's active powers is not read-only — when the
store holds no active row but at least one non-expired inactive row, every
non-expired row is updated to active (level defaulted to 1, confirmation to
false), those rows are returned, and the stored rows change. -/
theorem C10_fetch_repairs (db : List PowerRow) (now : Int)
    (hnodup : (db.map PowerRow.id).Nodup)
    (hinactive : ∀ r ∈ db, r.is_active = false)
    (hsome : ∃ r ∈ db, isNonExpired now r = true) :
    (getActiveUserPowers db now).2 =
      db.map (fun r => if isNonExpired now r then activateRow r else r) ∧
    (getActiveUserPowers db now).1 =
      (db.filter (fun r => isNonExpired now r)).map activateRow ∧
    (getActiveUserPowers db now).2 ≠ db := by
  obtain ⟨r0, hr0, hr0ne⟩ := hsome
  have hdata : db.filter (fun r => r.is_active && isNonExpired now r) = [] := by
    rw [List.filter_eq_nil_iff]
    intro r hr
    simp [hinactive r hr]
  have hne : db.filter (fun r => !r.is_active && isNonExpired now r) =
      db.filter (fun r => isNonExpired now r) := by
    apply List.filter_congr
    intro r hr
    simp [hinactive r hr]
  have hmem0 : r0 ∈ db.filter (fun r => isNonExpired now r) :=
    List.mem_filter.2 ⟨hr0, by simp [hr0ne]⟩
  have hnonempty : (db.filter (fun r => isNonExpired now r)).isEmpty = false := by
    cases hfe : (db.filter (fun r => isNonExpired now r)).isEmpty with
    | false => rfl
    | true =>
        rw [List.isEmpty_iff] at hfe
        rw [hfe] at hmem0
        cases hmem0
  have hcond : ∀ r ∈ db,
      ((db.filter (fun x => isNonExpired now x)).any
        (fun p => p.id == r.id)) = isNonExpired now r := by
    intro r hr
    by_cases h : isNonExpired now r = true
    · rw [h, List.any_eq_true]
      exact ⟨r, List.mem_filter.2 ⟨hr, by simp [h]⟩, by simp⟩
    · have hf : isNonExpired now r = false := by
        cases hv : isNonExpired now r
        · rfl
        · exact absurd hv h
      rw [hf]
      cases hany : (db.filter (fun x => isNonExpired now x)).any
          (fun p => p.id == r.id) with
      | false => rfl
      | true =>
          exfalso
          obtain ⟨p, hp, hpid⟩ := List.any_eq_true.1 hany
          have hpdb : p ∈ db := (List.mem_filter.1 hp).1
          have hpne : isNonExpired now p = true :=
            by simpa using (List.mem_filter.1 hp).2
          have hpr : p = r :=
            List.inj_on_of_nodup_map hnodup hpdb hr
              (by simpa using hpid)
          rw [hpr] at hpne
          exact h hpne
  have hdb2 : (getActiveUserPowers db now).2 =
      db.map (fun r => if isNonExpired now r then activateRow r else r) := by
    simp only [getActiveUserPowers, hdata, List.isEmpty_nil, if_pos, hne,
      hnonempty, Bool.false_eq_true, if_false]
    apply List.map_congr_left
    intro r hr
    rw [hcond r hr]
  have hdb1 : (getActiveUserPowers db now).1 =
      (db.filter (fun r => isNonExpired now r)).map activateRow := by
    simp only [getActiveUserPowers, hdata, List.isEmpty_nil, if_pos, hne,
      hnonempty, Bool.false_eq_true, if_false]
    have hmapped : (db.map (fun r =>
        if (db.filter (fun x => isNonExpired now x)).any
            (fun p => p.id == r.id) then activateRow r else r)) =
        db.map (fun r => if isNonExpired now r then activateRow r else r) := by
      apply List.map_congr_left
      intro r hr
      rw [hcond r hr]
    rw [hmapped, filter_of_map]
    have hfcong : db.filter (fun a =>
        ((if isNonExpired now a then activateRow a else a).is_active &&
          isNonExpired now (if isNonExpired now a then activateRow a
            else a))) = db.filter (fun a => isNonExpired now a) := by
      apply List.filter_congr
      intro a ha
      by_cases h : isNonExpired now a = true
      · rw [if_pos h]
        show (true && isNonExpired now a) = isNonExpired now a
        rw [Bool.true_and]
      · have hf : isNonExpired now a = false := by
          cases hv : isNonExpired now a
          · rfl
          · exact absurd hv h
        rw [hf]
        simp [hinactive a ha]
    rw [hfcong, List.map_map]
    apply List.map_congr_left
    intro a ha
    have hane : isNonExpired now a = true := by
      simpa using (List.mem_filter.1 ha).2
    simp only [Function.comp]
    rw [if_pos hane]
    rfl
  refine ⟨hdb2, hdb1, ?_⟩
  rw [hdb2]
  intro heq
  have hmemmap : activateRow r0 ∈
      db.map (fun r => if isNonExpired now r then activateRow r else r) := by
    have := List.mem_map_of_mem
      (fun r => if isNonExpired now r then activateRow r else r) hr0
    simpa [hr0ne] using this
  rw [heq] at hmemmap
  have := hinactive _ hmemmap
  simp [activateRow] at this

/-- Witness for C10: a store with one inactive permanent row and one inactive
expired row; the fetch activates the permanent row (defaulting level and
confirmation), returns it, and the stored rows change. -/
theorem C10_witness :
    (getActiveUserPowers
        [⟨1, false, none, none, none⟩, ⟨2, false, some (-5), some 2, some true⟩]
        0).2 =
      [⟨1, true, none, some 1, some false⟩,
        ⟨2, false, some (-5), some 2, some true⟩] ∧
    (getActiveUserPowers
        [⟨1, false, none, none, none⟩, ⟨2, false, some (-5), some 2, some true⟩]
        0).1 = [⟨1, true, none, some 1, some false⟩] ∧
    (getActiveUserPowers
        [⟨1, false, none, none, none⟩, ⟨2, false, some (-5), some 2, some true⟩]
        0).2 ≠
      [⟨1, false, none, none, none⟩,
        ⟨2, false, some (-5), some 2, some true⟩] := by
  have h := C10_fetch_repairs
    [⟨1, false, none, none, none⟩, ⟨2, false, some (-5), some 2, some true⟩] 0
    (by decide) (by decide)
    ⟨⟨1, false, none, none, none⟩, by decide, by decide⟩
  exact ⟨h.1.trans (by decide), h.2.1.trans (by decide), h.2.2⟩
